import Mathlib

/-!
Verification of the MITRE ATT&CK group-techniques scraper (`main.py`).

The HTML collaborators (requests / BeautifulSoup) are abstracted away:
a table cell is the list of its hyperlink texts plus its full visible text,
a table row is its class-marker list plus its cell list, and a fetch of a
group page either fails, finds no techniques table, or yields the table's
row list.  Every parsing function below is a direct Lean transcription of
the corresponding Python function in `main.py`; Python `IndexError` on a
missing cell is modelled by `Option` (`none` = exception), which the group
loop catches per group exactly as the `try/except` in
`enum_mitre_attack_group_techniques` does.
-/

/-- A table cell: the visible texts of its `<a>` descendants in document
order (`find("a")` returns the first, `find_all("a")` all of them), and the
cell's full visible text (`cell.text`). -/
structure Cell where
  links : List String
  text : String
deriving DecidableEq, Repr

/-- A table row: its `class` attribute list and its `<td>` cells. -/
structure Row where
  classes : List String
  cells : List Cell
deriving DecidableEq, Repr

/-- One emitted technique record, with the exact field (column) names the
Python dictionaries use. -/
structure TechRecord where
  Group_ID : String
  Domain : String
  Technique_ID : String
  Technique_Name : String
  Sub_Technique_ID : String
  Sub_Technique_Name : String
  Full_Technique_ID : String
  Full_Technique_Name : String
  Use : String
deriving DecidableEq, Repr

/-- Python's `str.strip()`: drop whitespace from both ends of the string.
(Defined by structural recursion over the character list so that concrete
instances evaluate.) -/
def pyStrip (s : String) : String :=
  String.mk (((s.data.dropWhile Char.isWhitespace).reverse.dropWhile
      Char.isWhitespace).reverse)

/-- `link.text.strip() if link else cell.text.strip()` where `link` is
`cell.find("a")`: the first hyperlink's stripped text if a hyperlink is
present, else the cell's own stripped text. -/
def cellLinkOrText (c : Cell) : String :=
  match c.links.head? with
  | some l => pyStrip l
  | none => pyStrip c.text

/-- `process_technique_row` from `main.py`: parse a parent-technique row.
Returns the emitted record and the new "last technique id"; `none` models a
Python `IndexError` from a missing cell. -/
def process_technique_row (row : Row) (group_id : String)
    (last_technique_id : String) : Option (TechRecord × String) := do
  let c0 ← row.cells[0]?
  let c1 ← row.cells[1]?
  let c2 ← row.cells[2]?
  let c3 ← row.cells[3]?
  let domain := pyStrip c0.text
  let id_text := cellLinkOrText c1
  let technique_id := if id_text = "" then last_technique_id else id_text
  let technique_name := cellLinkOrText c2
  let use_description := pyStrip c3.text
  some ({ Group_ID := group_id
          Domain := domain
          Technique_ID := technique_id
          Technique_Name := technique_name
          Sub_Technique_ID := ""
          Sub_Technique_Name := ""
          Full_Technique_ID := technique_id
          Full_Technique_Name := technique_name
          Use := use_description }, technique_id)

/-- `process_full_subtechnique_row` from `main.py`: parse a sub-technique
row that carries its own domain column. -/
def process_full_subtechnique_row (row : Row) (group_id : String)
    (last_technique_id : String) : Option (TechRecord × String) := do
  let c0 ← row.cells[0]?
  let c1 ← row.cells[1]?
  let c2 ← row.cells[2]?
  let c3 ← row.cells[3]?
  let c4 ← row.cells[4]?
  let domain := pyStrip c0.text
  let pid_text := cellLinkOrText c1
  let parent_technique_id := if pid_text = "" then last_technique_id else pid_text
  let sub_technique_id := cellLinkOrText c2
  let full_name := pyStrip c3.text
  let parent_name := ((c3.links[0]?).map pyStrip).getD ""
  let sub_name := ((c3.links[1]?).map pyStrip).getD ""
  let use_description := pyStrip c4.text
  let full_technique_id := parent_technique_id ++ sub_technique_id
  some ({ Group_ID := group_id
          Domain := domain
          Technique_ID := parent_technique_id
          Technique_Name := parent_name
          Sub_Technique_ID := sub_technique_id
          Sub_Technique_Name := sub_name
          Full_Technique_ID := full_technique_id
          Full_Technique_Name := full_name
          Use := use_description }, parent_technique_id)

/-- The fallback scan in `process_continuation_subtechnique_row`: walk the
already-collected records in reverse emission order and take the technique
id of the first record of this group whose `Technique_ID` is non-empty
(Python truthiness) and whose `Sub_Technique_ID` is empty; `""` if none. -/
def fallbackParentId (group_id : String) (all_techniques : List TechRecord) : String :=
  match all_techniques.reverse.find? (fun t =>
      t.Group_ID == group_id && !(t.Technique_ID == "") && t.Sub_Technique_ID == "") with
  | some t => t.Technique_ID
  | none => ""

/-- `process_continuation_subtechnique_row` from `main.py`: parse a
sub-technique continuation row (no domain column).  The parent id comes
from `last_technique_id`, with the fallback scan when that is empty. -/
def process_continuation_subtechnique_row (row : Row) (group_id : String)
    (all_techniques : List TechRecord) (last_technique_id : String) :
    Option (TechRecord × String) := do
  let c2 ← row.cells[2]?
  let c3 ← row.cells[3]?
  let c4 ← row.cells[4]?
  let sub_technique_id := cellLinkOrText c2
  let parent_name := ((c3.links[0]?).map pyStrip).getD ""
  let sub_name := ((c3.links[1]?).map pyStrip).getD ""
  let full_name := pyStrip c3.text
  let use_description := pyStrip c4.text
  let parent_technique_id :=
    if last_technique_id = "" then fallbackParentId group_id all_techniques
    else last_technique_id
  let full_technique_id := parent_technique_id ++ sub_technique_id
  some ({ Group_ID := group_id
          Domain := "Enterprise"
          Technique_ID := parent_technique_id
          Technique_Name := parent_name
          Sub_Technique_ID := sub_technique_id
          Sub_Technique_Name := sub_name
          Full_Technique_ID := full_technique_id
          Full_Technique_Name := full_name
          Use := use_description }, parent_technique_id)

/-- The kind a row is dispatched to by the `if/elif` chain in
`enum_mitre_attack_group_techniques` (after the `len(cells) < 2` guard). -/
inductive RowKind where
  | parent
  | fullSub
  | continuation
  | skipped
deriving DecidableEq, Repr

/-- Row dispatch of `enum_mitre_attack_group_techniques`: rows with fewer
than 2 cells are skipped, then the class markers decide the handler;
anything unrecognized is skipped. -/
def classifyRow (row : Row) : RowKind :=
  if row.cells.length < 2 then RowKind.skipped
  else if "technique" ∈ row.classes ∧ "sub" ∉ row.classes then RowKind.parent
  else if "sub" ∈ row.classes ∧ "noparent" ∈ row.classes then RowKind.fullSub
  else if "sub" ∈ row.classes then RowKind.continuation
  else RowKind.skipped

/-- One iteration of the row loop: dispatch the row to its handler, append
the emitted record (if any) to the accumulated list, and update the carried
"last technique id".  `none` models a handler raising `IndexError`. -/
def processRow (row : Row) (group_id : String) (all_techniques : List TechRecord)
    (last_technique_id : String) : Option (List TechRecord × String) :=
  match classifyRow row with
  | RowKind.skipped => some (all_techniques, last_technique_id)
  | RowKind.parent =>
      (process_technique_row row group_id last_technique_id).map
        (fun p => (all_techniques ++ [p.1], p.2))
  | RowKind.fullSub =>
      (process_full_subtechnique_row row group_id last_technique_id).map
        (fun p => (all_techniques ++ [p.1], p.2))
  | RowKind.continuation =>
      (process_continuation_subtechnique_row row group_id all_techniques
          last_technique_id).map
        (fun p => (all_techniques ++ [p.1], p.2))

/-- The row loop over one group's (header-stripped) rows.  A handler
exception aborts the loop — the remaining rows of the group are dropped and
the records accumulated so far are kept, exactly as the per-group
`try/except` in the Python does. -/
def processRows (rows : List Row) (group_id : String)
    (all_techniques : List TechRecord) (last_technique_id : String) :
    List TechRecord :=
  match rows with
  | [] => all_techniques
  | r :: rs =>
    match processRow r group_id all_techniques last_technique_id with
    | none => all_techniques
    | some p => processRows rs group_id p.1 p.2

/-- Outcome of fetching one group's page: non-success status or a raised
exception; a page without a `techniques-used` table; or the table's rows
(header row included). -/
inductive FetchResult where
  | failure
  | noTable
  | table (rows : List Row)
deriving DecidableEq, Repr

/-- One iteration of the group loop: on success, skip the header row and
run the row loop with the "last technique id" initialized empty; on failure
or a missing table, leave the accumulated records untouched. -/
def processGroup (group_id : String) (fr : FetchResult)
    (all_techniques : List TechRecord) : List TechRecord :=
  match fr with
  | FetchResult.failure => all_techniques
  | FetchResult.noTable => all_techniques
  | FetchResult.table rows => processRows (rows.drop 1) group_id all_techniques ""

/-- `enum_mitre_attack_group_techniques` from `main.py`, with each group
paired with its fetch outcome: fold the group loop over the listing order,
starting from an empty record list. -/
def enum_mitre_attack_group_techniques
    (groups : List (String × FetchResult)) : List TechRecord :=
  groups.foldl (fun acc g => processGroup g.1 g.2 acc) []

/-- A roster entry of the groups listing (`ID`/`Name` columns). -/
structure GroupEntry where
  ID : String
  Name : String
deriving DecidableEq, Repr

/-- `fetch_mitre_attack_groups` from `main.py`, given the rows of the
bordered groups table: skip the header row, and for each row with at least
2 cells append the trimmed texts of its first two cells to the parallel
`group_ids` / `group_names` lists. -/
def fetch_mitre_attack_groups (rows : List Row) : List String × List String :=
  (rows.drop 1).foldl
    (fun acc r =>
      match r.cells[0]?, r.cells[1]? with
      | some c0, some c1 => (acc.1 ++ [pyStrip c0.text], acc.2 ++ [pyStrip c1.text])
      | _, _ => acc)
    ([], [])

/-- The roster the Python builds as `pd.DataFrame` from the two parallel
lists: the columns zipped into `(ID, Name)` records. -/
def groupsRoster (rows : List Row) : List GroupEntry :=
  ((fetch_mitre_attack_groups rows).1.zip (fetch_mitre_attack_groups rows).2).map
    (fun p => { ID := p.1, Name := p.2 })

/-! Concrete example data (rows mirroring the shapes described in the
specification's scenarios) used to instantiate the theorems below. -/

/-- A well-formed parent-technique row. -/
def exParentRow : Row :=
  { classes := ["technique"],
    cells := [⟨[], "Enterprise"⟩, ⟨["T1059"], "T1059"⟩,
      ⟨["Command and Scripting Interpreter"], "Command and Scripting Interpreter"⟩,
      ⟨[], "Used X tool"⟩] }

/-- The record `process_technique_row` emits for `exParentRow`. -/
def exParentRec : TechRecord :=
  { Group_ID := "G0007", Domain := "Enterprise", Technique_ID := "T1059",
    Technique_Name := "Command and Scripting Interpreter",
    Sub_Technique_ID := "", Sub_Technique_Name := "",
    Full_Technique_ID := "T1059",
    Full_Technique_Name := "Command and Scripting Interpreter",
    Use := "Used X tool" }

/-- A well-formed sub-technique row with its own domain column. -/
def exFullSubRow : Row :=
  { classes := ["sub", "noparent"],
    cells := [⟨[], "Enterprise"⟩, ⟨["T1059"], "T1059"⟩, ⟨[".001"], ".001"⟩,
      ⟨["Command and Scripting Interpreter", "PowerShell"],
        "Command and Scripting Interpreter: PowerShell"⟩,
      ⟨[], "used ps"⟩] }

/-- The record `process_full_subtechnique_row` emits for `exFullSubRow`. -/
def exFullSubRec : TechRecord :=
  { Group_ID := "G0007", Domain := "Enterprise", Technique_ID := "T1059",
    Technique_Name := "Command and Scripting Interpreter",
    Sub_Technique_ID := ".001", Sub_Technique_Name := "PowerShell",
    Full_Technique_ID := "T1059.001",
    Full_Technique_Name := "Command and Scripting Interpreter: PowerShell",
    Use := "used ps" }

/-- A well-formed sub-technique continuation row (blank first two cells). -/
def exContRow : Row :=
  { classes := ["sub"],
    cells := [⟨[], ""⟩, ⟨[], ""⟩, ⟨[".003"], ".003"⟩,
      ⟨["Command and Scripting Interpreter", "Windows Command Shell"],
        "Command and Scripting Interpreter: Windows Command Shell"⟩,
      ⟨[], "used cmd"⟩] }

/-- The record `process_continuation_subtechnique_row` emits for `exContRow`
when the carried last technique id is `"T1059"`. -/
def exContRec : TechRecord :=
  { Group_ID := "G0007", Domain := "Enterprise", Technique_ID := "T1059",
    Technique_Name := "Command and Scripting Interpreter",
    Sub_Technique_ID := ".003", Sub_Technique_Name := "Windows Command Shell",
    Full_Technique_ID := "T1059.003",
    Full_Technique_Name := "Command and Scripting Interpreter: Windows Command Shell",
    Use := "used cmd" }

/-- A groups-listing table: one header row and one data row
`["G0001", "APT-Example"]` (specification Scenario A). -/
def scenarioGroupsRows : List Row :=
  [{ classes := [], cells := [] },
   { classes := [], cells := [⟨[], "G0001"⟩, ⟨[], "APT-Example"⟩] }]

/-- The continuation fallback exactly as the specification words it:
scan the previously-emitted records of the current group in reverse
emission order and select the first whose sub-technique id field is empty,
using that record's technique id; `""` when no such record exists.
(To be compared with `fallbackParentId`, the scan the code performs.) -/
def claimFallbackParentId (group_id : String) (all_techniques : List TechRecord) : String :=
  match all_techniques.reverse.find? (fun t =>
      t.Group_ID == group_id && t.Sub_Technique_ID == "") with
  | some t => t.Technique_ID
  | none => ""

/-- A previously-emitted parent record with a non-empty technique id. -/
def exRecT1111 : TechRecord :=
  { Group_ID := "G0001", Domain := "Enterprise", Technique_ID := "T1111",
    Technique_Name := "N", Sub_Technique_ID := "", Sub_Technique_Name := "",
    Full_Technique_ID := "T1111", Full_Technique_Name := "N", Use := "u" }

/-- A previously-emitted record with empty technique id and empty
sub-technique id (as a parent row with a blank id cell produces). -/
def exRecEmptyId : TechRecord :=
  { Group_ID := "G0001", Domain := "Enterprise", Technique_ID := "",
    Technique_Name := "N2", Sub_Technique_ID := "", Sub_Technique_Name := "",
    Full_Technique_ID := "", Full_Technique_Name := "N2", Use := "u2" }

/-- An emission history on which the two fallback scans disagree: the most
recent record with empty sub id has an empty technique id, but an older one
has technique id "T1111". -/
def exAccC2 : List TechRecord := [exRecT1111, exRecEmptyId]

/-- A `SUBTECHNIQUE_WITH_DOMAIN` row whose own parent id cell is blank. -/
def exFullSubNoIdRow : Row :=
  { classes := ["sub", "noparent"],
    cells := [⟨[], "Enterprise"⟩, ⟨[], "  "⟩, ⟨[".001"], ".001"⟩,
      ⟨["A", "B"], "A: B"⟩, ⟨[], "u"⟩] }

/-- A row classified `PARENT_TECHNIQUE` but carrying only 2 cells: enough
to pass the row loop's cell-count guard, too few for its handler. -/
def exShortParentRow : Row :=
  { classes := ["technique"],
    cells := [⟨[], "Enterprise"⟩, ⟨["T1059"], "T1059"⟩] }

/-- The record the continuation handler emits for `exContRow` when the
carry-over id is empty and the emission history is `exAccC2`. -/
def exContRecC2 : TechRecord :=
  { Group_ID := "G0001", Domain := "Enterprise", Technique_ID := "T1111",
    Technique_Name := "Command and Scripting Interpreter",
    Sub_Technique_ID := ".003", Sub_Technique_Name := "Windows Command Shell",
    Full_Technique_ID := "T1111.003",
    Full_Technique_Name := "Command and Scripting Interpreter: Windows Command Shell",
    Use := "used cmd" }

/-- A row with no cells at all, as a stray header/footer row presents. -/
def exHeaderRow : Row := { classes := [], cells := [] }

/-- Replace a record's `Group_ID`.  Two groups' outputs are "identical
record sequences" in the sense of the specification when one is the
`withGroup` image of the other: equal in every field except the group id. -/
def withGroup (g : String) (r : TechRecord) : TechRecord := { r with Group_ID := g }

/-- A techniques table whose first data row is (unexpectedly) a
continuation row, followed by a normal parent-technique row: parsing it
twice for the same group gives different record sequences, because the
second pass's fallback scan sees the first pass's records. -/
def exTableC7 : List Row := [exHeaderRow, exContRow, exParentRow]

/-- Helper: the two parallel lists built by the `fetch_mitre_attack_groups`
fold, zipped, are exactly the `(ID, Name)` pairs of the rows having at
least two cells, in table order. -/
theorem foldl_pair_zip (l : List Row) : ∀ a b : List String, a.length = b.length →
    ((l.foldl (fun acc r =>
        match r.cells[0]?, r.cells[1]? with
        | some c0, some c1 => (acc.1 ++ [pyStrip c0.text], acc.2 ++ [pyStrip c1.text])
        | _, _ => acc) (a, b)).1.zip
     (l.foldl (fun acc r =>
        match r.cells[0]?, r.cells[1]? with
        | some c0, some c1 => (acc.1 ++ [pyStrip c0.text], acc.2 ++ [pyStrip c1.text])
        | _, _ => acc) (a, b)).2)
    = a.zip b ++ l.filterMap (fun r =>
        match r.cells[0]?, r.cells[1]? with
        | some c0, some c1 => some (pyStrip c0.text, pyStrip c1.text)
        | _, _ => none) := by
  induction l with
  | nil => intro a b h; simp
  | cons r rs ih =>
    intro a b h
    rw [List.foldl_cons, List.filterMap_cons]
    cases h0 : r.cells[0]? with
    | none => simp only [h0]; rw [ih a b h]
    | some c0 =>
      cases h1 : r.cells[1]? with
      | none => simp only [h0, h1]; rw [ih a b h]
      | some c1 =>
        simp only [h0, h1]
        rw [ih (a ++ [pyStrip c0.text]) (b ++ [pyStrip c1.text]) (by simp [h]),
          List.zip_append h]
        simp

/-- C9: for a groups listing table whose first row is a header, the roster
contains, in table order, one (ID, Name) pair per non-header row having at
least 2 cells — ID and Name the stripped texts of the first two cells —
and rows with fewer than 2 cells contribute nothing; in particular the
one-header-one-data-row table of Scenario A yields exactly
`[{ ID := "G0001", Name := "APT-Example" }]`. -/
theorem C9_roster_pairs (rows : List Row) :
    groupsRoster rows = (rows.drop 1).filterMap (fun r =>
      match r.cells[0]?, r.cells[1]? with
      | some c0, some c1 => some { ID := pyStrip c0.text, Name := pyStrip c1.text }
      | _, _ => none) ∧
    groupsRoster scenarioGroupsRows = [{ ID := "G0001", Name := "APT-Example" }] := by
  constructor
  · unfold groupsRoster fetch_mitre_attack_groups
    rw [foldl_pair_zip (rows.drop 1) [] [] rfl]
    simp [List.map_filterMap]
    congr 1
    funext r
    cases h0 : r.cells[0]? <;> cases h1 : r.cells[1]? <;> simp [h0, h1]
  · rfl

/-- C6: a fetch failure for one group contributes zero records, leaves the
records of the earlier groups unchanged, and enumeration continues with the
later groups exactly as if the failing group were absent. -/
theorem C6_fetch_failure_isolated (gid : String)
    (gs1 gs2 : List (String × FetchResult)) :
    enum_mitre_attack_group_techniques (gs1 ++ (gid, FetchResult.failure) :: gs2)
      = enum_mitre_attack_group_techniques (gs1 ++ gs2) := by
  unfold enum_mitre_attack_group_techniques
  rw [List.foldl_append, List.foldl_append, List.foldl_cons]
  rfl

/-- C4: a row classified `PARENT_TECHNIQUE` whose id cell extracts to
non-empty text yields a record whose `Technique_ID` is that extracted text,
whose `Full_Technique_ID` equals its `Technique_ID`, and whose
`Sub_Technique_ID` and `Sub_Technique_Name` are empty. -/
theorem C4_parent_row_fields (row : Row) (gid last : String) (c1 : Cell)
    (acc : List TechRecord) (rec : TechRecord) (l2 : String)
    (hk : classifyRow row = RowKind.parent)
    (hc1 : row.cells[1]? = some c1)
    (hne : cellLinkOrText c1 ≠ "")
    (h : processRow row gid acc last = some (acc ++ [rec], l2)) :
    rec.Technique_ID = cellLinkOrText c1 ∧
    rec.Full_Technique_ID = rec.Technique_ID ∧
    rec.Sub_Technique_ID = "" ∧ rec.Sub_Technique_Name = "" := by
  unfold processRow at h
  rw [hk] at h
  cases h0 : row.cells[0]? with
  | none => simp [process_technique_row, h0] at h
  | some c0 =>
    cases h2 : row.cells[2]? with
    | none => simp [process_technique_row, h0, hc1, h2] at h
    | some c2 =>
      cases h3 : row.cells[3]? with
      | none => simp [process_technique_row, h0, hc1, h2, h3] at h
      | some c3 =>
        simp [process_technique_row, h0, hc1, h2, h3, hne] at h
        rw [← h.1]
        exact ⟨rfl, rfl, rfl, rfl⟩

/-- C4 witness: the concrete parent row `exParentRow` satisfies every
hypothesis of `C4_parent_row_fields` and emits `exParentRec`. -/
theorem C4_parent_row_fields_witness :
    exParentRec.Technique_ID = cellLinkOrText ⟨["T1059"], "T1059"⟩ ∧
    exParentRec.Full_Technique_ID = exParentRec.Technique_ID ∧
    exParentRec.Sub_Technique_ID = "" ∧ exParentRec.Sub_Technique_Name = "" :=
  C4_parent_row_fields exParentRow "G0007" "" ⟨["T1059"], "T1059"⟩ [] exParentRec
    "T1059" (by decide) (by decide) (by decide) (by decide)

/-- C8: every record emitted for a row classified `SUBTECHNIQUE_CONTINUATION`
has Domain equal to the fixed constant "Enterprise", whatever the row's
cells contain. -/
theorem C8_continuation_domain (row : Row) (gid last : String)
    (acc : List TechRecord) (rec : TechRecord) (l2 : String)
    (hk : classifyRow row = RowKind.continuation)
    (h : processRow row gid acc last = some (acc ++ [rec], l2)) :
    rec.Domain = "Enterprise" := by
  unfold processRow at h
  rw [hk] at h
  cases h2 : row.cells[2]? with
  | none => simp [process_continuation_subtechnique_row, h2] at h
  | some c2 =>
    cases h3 : row.cells[3]? with
    | none => simp [process_continuation_subtechnique_row, h2, h3] at h
    | some c3 =>
      cases h4 : row.cells[4]? with
      | none => simp [process_continuation_subtechnique_row, h2, h3, h4] at h
      | some c4 =>
        simp [process_continuation_subtechnique_row, h2, h3, h4] at h
        rw [← h.1]

/-- C8 witness: the concrete continuation row `exContRow` satisfies the
hypotheses of `C8_continuation_domain`. -/
theorem C8_continuation_domain_witness : exContRec.Domain = "Enterprise" :=
  C8_continuation_domain exContRow "G0007" "T1059" [] exContRec "T1059"
    (by decide) (by decide)

/-- C10: every record emitted by any of the three row handlers satisfies
`Full_Technique_ID = Technique_ID ++ Sub_Technique_ID`, so the composite
identifier is reconstructible from the record's two component fields. -/
theorem C10_full_id_invariant (row : Row) (gid : String)
    (acc : List TechRecord) (last : String) (rec : TechRecord) (l2 : String) :
    (process_technique_row row gid last = some (rec, l2) →
      rec.Full_Technique_ID = rec.Technique_ID ++ rec.Sub_Technique_ID) ∧
    (process_full_subtechnique_row row gid last = some (rec, l2) →
      rec.Full_Technique_ID = rec.Technique_ID ++ rec.Sub_Technique_ID) ∧
    (process_continuation_subtechnique_row row gid acc last = some (rec, l2) →
      rec.Full_Technique_ID = rec.Technique_ID ++ rec.Sub_Technique_ID) := by
  refine ⟨?_, ?_, ?_⟩ <;> intro h
  · cases h0 : row.cells[0]? <;>
      cases h1 : row.cells[1]? <;>
      cases h2 : row.cells[2]? <;>
      cases h3 : row.cells[3]? <;>
      simp [process_technique_row, h0, h1, h2, h3] at h
    simp [← h.1, String.append_empty]
  · cases h0 : row.cells[0]? <;>
      cases h1 : row.cells[1]? <;>
      cases h2 : row.cells[2]? <;>
      cases h3 : row.cells[3]? <;>
      cases h4 : row.cells[4]? <;>
      simp [process_full_subtechnique_row, h0, h1, h2, h3, h4] at h
    simp [← h.1]
  · cases h2 : row.cells[2]? <;>
      cases h3 : row.cells[3]? <;>
      cases h4 : row.cells[4]? <;>
      simp [process_continuation_subtechnique_row, h2, h3, h4] at h
    simp [← h.1]

/-- C10 witness: the invariant instantiated on one concrete row of each of
the three kinds. -/
theorem C10_full_id_invariant_witness :
    exParentRec.Full_Technique_ID
        = exParentRec.Technique_ID ++ exParentRec.Sub_Technique_ID ∧
    exFullSubRec.Full_Technique_ID
        = exFullSubRec.Technique_ID ++ exFullSubRec.Sub_Technique_ID ∧
    exContRec.Full_Technique_ID
        = exContRec.Technique_ID ++ exContRec.Sub_Technique_ID :=
  ⟨(C10_full_id_invariant exParentRow "G0007" [] "" exParentRec "T1059").1
      (by decide),
   (C10_full_id_invariant exFullSubRow "G0007" [] "" exFullSubRec "T1059").2.1
      (by decide),
   (C10_full_id_invariant exContRow "G0007" [] "T1059" exContRec "T1059").2.2
      (by decide)⟩

/-- C1: a `SUBTECHNIQUE_CONTINUATION` row processed immediately after a
`PARENT_TECHNIQUE` or `SUBTECHNIQUE_WITH_DOMAIN` row that resolved to
technique id X emits a record whose `Technique_ID` is X, supplied by the
carry-over state rather than read from the row. -/
theorem C1_continuation_inherits_parent (rprev rcont : Row) (gid last X : String)
    (accIn acc1 : List TechRecord) (rec : TechRecord) (last2 : String)
    (_hk : classifyRow rprev = RowKind.parent ∨ classifyRow rprev = RowKind.fullSub)
    (_hprev : processRow rprev gid accIn last = some (acc1, X))
    (hX : X ≠ "")
    (hck : classifyRow rcont = RowKind.continuation)
    (hcont : processRow rcont gid acc1 X = some (acc1 ++ [rec], last2)) :
    rec.Technique_ID = X := by
  unfold processRow at hcont
  rw [hck] at hcont
  cases h2 : rcont.cells[2]? with
  | none => simp [process_continuation_subtechnique_row, h2] at hcont
  | some c2 =>
    cases h3 : rcont.cells[3]? with
    | none => simp [process_continuation_subtechnique_row, h2, h3] at hcont
    | some c3 =>
      cases h4 : rcont.cells[4]? with
      | none => simp [process_continuation_subtechnique_row, h2, h3, h4] at hcont
      | some c4 =>
        simp [process_continuation_subtechnique_row, h2, h3, h4, hX] at hcont
        rw [← hcont.1]

/-- C1 witness: `exContRow` right after `exParentRow` (which resolves to
"T1059") emits a record carrying Technique_ID "T1059". -/
theorem C1_continuation_inherits_parent_witness : exContRec.Technique_ID = "T1059" :=
  C1_continuation_inherits_parent exParentRow exContRow "G0007" "" "T1059"
    [] [exParentRec] exContRec "T1059"
    (Or.inl (by decide)) (by decide) (by decide) (by decide) (by decide)

/-- C2 counterexample: on the emission history `exAccC2` the scan the claim
describes (first record in reverse order of this group with empty
`Sub_Technique_ID`) selects `exRecEmptyId` and yields an empty parent id,
but the code's scan skips records with empty `Technique_ID` and the record
actually emitted carries Technique_ID "T1111". -/
theorem C2_fallback_scan_counterexample :
    claimFallbackParentId "G0001" exAccC2 = "" ∧
    (process_continuation_subtechnique_row exContRow "G0001" exAccC2 "").map
        (fun p => p.1.Technique_ID) = some "T1111" ∧
    ¬ ("T1111" = "") := by decide

/-- C2 (amended): for a continuation row processed with empty carry-over
state, the parent id is the technique id of the first record in reverse
emission order whose Group_ID is the current group, whose Technique_ID is
non-empty, and whose Sub_Technique_ID is empty; when no such record exists
the parent id stays empty and Full_Technique_ID is the sub id alone. -/
theorem C2_fallback_scan_amended (row : Row) (gid : String)
    (acc : List TechRecord) (rec : TechRecord) (l2 : String)
    (_hk : classifyRow row = RowKind.continuation)
    (h : process_continuation_subtechnique_row row gid acc "" = some (rec, l2)) :
    rec.Technique_ID =
      (match acc.reverse.find? (fun t =>
          t.Group_ID == gid && !(t.Technique_ID == "") && t.Sub_Technique_ID == "") with
        | some t => t.Technique_ID
        | none => "") ∧
    (acc.reverse.find? (fun t =>
          t.Group_ID == gid && !(t.Technique_ID == "") && t.Sub_Technique_ID == "")
        = none →
      rec.Technique_ID = "" ∧ rec.Full_Technique_ID = rec.Sub_Technique_ID) := by
  cases h2 : row.cells[2]? with
  | none => simp [process_continuation_subtechnique_row, h2] at h
  | some c2 =>
    cases h3 : row.cells[3]? with
    | none => simp [process_continuation_subtechnique_row, h2, h3] at h
    | some c3 =>
      cases h4 : row.cells[4]? with
      | none => simp [process_continuation_subtechnique_row, h2, h3, h4] at h
      | some c4 =>
        simp [process_continuation_subtechnique_row, h2, h3, h4] at h
        rw [← h.1]
        unfold fallbackParentId
        cases hf : acc.reverse.find? (fun t =>
            t.Group_ID == gid && !(t.Technique_ID == "") && t.Sub_Technique_ID == "") with
        | none => exact ⟨rfl, fun _ => ⟨rfl, rfl⟩⟩
        | some t => exact ⟨rfl, fun hc => Option.noConfusion hc⟩

/-- C2 witness: the amended scan applied to the concrete history `exAccC2`
(where it selects the record with technique id "T1111"). -/
theorem C2_fallback_scan_amended_witness :
    exContRecC2.Technique_ID =
      (match exAccC2.reverse.find? (fun t =>
          t.Group_ID == "G0001" && !(t.Technique_ID == "") && t.Sub_Technique_ID == "") with
        | some t => t.Technique_ID
        | none => "") ∧
    (exAccC2.reverse.find? (fun t =>
          t.Group_ID == "G0001" && !(t.Technique_ID == "") && t.Sub_Technique_ID == "")
        = none →
      exContRecC2.Technique_ID = "" ∧
      exContRecC2.Full_Technique_ID = exContRecC2.Sub_Technique_ID) :=
  C2_fallback_scan_amended exContRow "G0001" exAccC2 exContRecC2 "T1111"
    (by decide) (by decide)

/-- C3 counterexample: for the `SUBTECHNIQUE_WITH_DOMAIN` row
`exFullSubNoIdRow`, whose own parent id cell extracts to "", processed with
carry-over id "T9000", the emitted Full_Technique_ID is "T9000.001" — not
the concatenation ".001" of the row's own two cells. -/
theorem C3_concatenation_counterexample :
    (exFullSubNoIdRow.cells[1]?).map cellLinkOrText = some "" ∧
    (exFullSubNoIdRow.cells[2]?).map cellLinkOrText = some ".001" ∧
    (process_full_subtechnique_row exFullSubNoIdRow "G0001" "T9000").map
        (fun p => p.1.Full_Technique_ID) = some "T9000.001" ∧
    ¬ ("T9000.001" = "" ++ ".001") := by decide

/-- C3 (amended): for a row classified `SUBTECHNIQUE_WITH_DOMAIN`, the
emitted Full_Technique_ID is the direct concatenation (no separator) of the
resolved parent id — the row's own parent id cell text when that is
non-empty, otherwise the carry-over last technique id — and the text of
the row's own sub id cell. -/
theorem C3_full_sub_composite_amended (row : Row) (gid last : String)
    (c1 c2 : Cell) (rec : TechRecord) (l2 : String)
    (_hk : classifyRow row = RowKind.fullSub)
    (h1 : row.cells[1]? = some c1) (h2 : row.cells[2]? = some c2)
    (h : process_full_subtechnique_row row gid last = some (rec, l2)) :
    rec.Full_Technique_ID =
      (if cellLinkOrText c1 = "" then last else cellLinkOrText c1)
        ++ cellLinkOrText c2 := by
  cases h0 : row.cells[0]? with
  | none => simp [process_full_subtechnique_row, h0] at h
  | some c0 =>
    cases h3 : row.cells[3]? with
    | none => simp [process_full_subtechnique_row, h0, h1, h2, h3] at h
    | some c3 =>
      cases h4 : row.cells[4]? with
      | none => simp [process_full_subtechnique_row, h0, h1, h2, h3, h4] at h
      | some c4 =>
        simp [process_full_subtechnique_row, h0, h1, h2, h3, h4] at h
        rw [← h.1]

/-- C3 witness: the amended composite rule on the concrete row
`exFullSubRow` (non-empty parent id cell "T1059", sub id cell ".001"). -/
theorem C3_full_sub_composite_amended_witness :
    exFullSubRec.Full_Technique_ID =
      (if cellLinkOrText ⟨["T1059"], "T1059"⟩ = ""
        then "" else cellLinkOrText ⟨["T1059"], "T1059"⟩)
        ++ cellLinkOrText ⟨[".001"], ".001"⟩ :=
  C3_full_sub_composite_amended exFullSubRow "G0007" "" ⟨["T1059"], "T1059"⟩
    ⟨[".001"], ".001"⟩ exFullSubRec "T1059"
    (by decide) (by decide) (by decide) (by decide)

/-- C5 counterexample: `exShortParentRow` is classified as a technique row
but has only 2 cells; its handler raises (modelled `none`), and its
presence wipes out the record the following well-formed row of the same
group would otherwise produce. -/
theorem C5_malformed_row_counterexample :
    classifyRow exShortParentRow = RowKind.parent ∧
    processRow exShortParentRow "G0007" [] "" = none ∧
    processRows [exShortParentRow, exParentRow] "G0007" [] "" = [] ∧
    processRows [exParentRow] "G0007" [] "" = [exParentRec] := by decide

/-- C5 (amended): rows with fewer than 2 cells or an unrecognized marker
combination are silently skipped with no record and no effect on the other
rows; but a row recognized as a technique/sub-technique row with too few
cells for its handler raises an exception, which the per-group handler
catches: no record is emitted for that row, the remaining rows of the group
are dropped, and the records accumulated so far are kept. -/
theorem C5_malformed_row_amended (r : Row) (rs : List Row) (gid : String)
    (acc : List TechRecord) (last : String) :
    (classifyRow r = RowKind.skipped →
      processRows (r :: rs) gid acc last = processRows rs gid acc last) ∧
    (processRow r gid acc last = none →
      processRows (r :: rs) gid acc last = acc) := by
  constructor
  · intro hk
    have hstep : processRow r gid acc last = some (acc, last) := by
      unfold processRow; rw [hk]
    simp only [processRows, hstep]
  · intro hn
    simp only [processRows, hn]

/-- C5 witness: the amended behaviour on concrete rows — a cell-less header
row is skipped with no effect, and the 2-cell technique row aborts its
group's remaining rows. -/
theorem C5_malformed_row_amended_witness :
    processRows [exHeaderRow, exParentRow] "G0007" [] ""
        = processRows [exParentRow] "G0007" [] "" ∧
    processRows [exShortParentRow, exParentRow] "G0007" [] "" = [] :=
  ⟨(C5_malformed_row_amended exHeaderRow [exParentRow] "G0007" [] "").1 (by decide),
   (C5_malformed_row_amended exShortParentRow [exParentRow] "G0007" [] "").2 (by decide)⟩

/-- The group id `withGroup` writes is the one given. -/
theorem withGroup_Group_ID (g : String) (r : TechRecord) : (withGroup g r).Group_ID = g := rfl

/-- `withGroup` is the identity on a record already carrying that group id. -/
theorem withGroup_self (g : String) (r : TechRecord) (h : r.Group_ID = g) :
    withGroup g r = r := by
  cases r; simp [withGroup] at h ⊢; exact h.symm

/-- Overwriting the group id twice keeps only the outer write. -/
theorem withGroup_comp (g1 g2 : String) (r : TechRecord) :
    withGroup g2 (withGroup g1 r) = withGroup g2 r := rfl

/-- `process_technique_row` depends on the group id only through the
`Group_ID` field of the record it emits. -/
theorem process_technique_row_rename (row : Row) (gid g2 last : String) :
    process_technique_row row g2 last
      = (process_technique_row row gid last).map (fun p => (withGroup g2 p.1, p.2)) := by
  cases h0 : row.cells[0]? <;>
    cases h1 : row.cells[1]? <;>
    cases h2 : row.cells[2]? <;>
    cases h3 : row.cells[3]? <;>
    simp [process_technique_row, withGroup, h0, h1, h2, h3]

/-- `process_full_subtechnique_row` depends on the group id only through
the `Group_ID` field of the record it emits. -/
theorem process_full_subtechnique_row_rename (row : Row) (gid g2 last : String) :
    process_full_subtechnique_row row g2 last
      = (process_full_subtechnique_row row gid last).map (fun p => (withGroup g2 p.1, p.2)) := by
  cases h0 : row.cells[0]? <;>
    cases h1 : row.cells[1]? <;>
    cases h2 : row.cells[2]? <;>
    cases h3 : row.cells[3]? <;>
    cases h4 : row.cells[4]? <;>
    simp [process_full_subtechnique_row, withGroup, h0, h1, h2, h3, h4]

/-- The fallback scan gives the same answer for two groups whose histories
are a foreign prefix (no records of the scanned group) followed by the same
records up to group id. -/
theorem fallbackParentId_rename (gid g2 : String) (pre pre2 new : List TechRecord)
    (hp : ∀ r ∈ pre, r.Group_ID ≠ gid) (hp2 : ∀ r ∈ pre2, r.Group_ID ≠ g2) :
    fallbackParentId g2 (pre2 ++ new.map (withGroup g2))
      = fallbackParentId gid (pre ++ new.map (withGroup gid)) := by
  unfold fallbackParentId
  rw [List.reverse_append, List.reverse_append,
    List.find?_append, List.find?_append,
    ← List.map_reverse, ← List.map_reverse,
    List.find?_map, List.find?_map]
  have hnone : ∀ (g : String) (l : List TechRecord), (∀ r ∈ l, r.Group_ID ≠ g) →
      l.reverse.find? (fun t =>
        t.Group_ID == g && !(t.Technique_ID == "") && t.Sub_Technique_ID == "") = none := by
    intro g l hl
    apply List.find?_eq_none.mpr
    intro x hx
    simp only [Bool.and_eq_true, beq_iff_eq]
    intro hcontra
    exact hl x (List.mem_reverse.mp hx) hcontra.1.1
  have hq : ∀ g : String, ((fun t : TechRecord =>
        t.Group_ID == g && !(t.Technique_ID == "") && t.Sub_Technique_ID == "")
      ∘ withGroup g)
      = (fun t : TechRecord => !(t.Technique_ID == "") && t.Sub_Technique_ID == "") := by
    intro g
    funext t
    simp [withGroup]
  rw [hq, hq]
  cases hf : new.reverse.find? (fun t =>
      !(t.Technique_ID == "") && t.Sub_Technique_ID == "") with
  | none =>
    rw [hnone g2 pre2 hp2, hnone gid pre hp]
    simp
  | some t =>
    rfl

/-- `process_continuation_subtechnique_row` on two related histories emits
records equal up to the group id, and the same carry-over value. -/
theorem process_cont_row_rename (row : Row) (gid g2 last : String)
    (pre pre2 new : List TechRecord)
    (hp : ∀ r ∈ pre, r.Group_ID ≠ gid) (hp2 : ∀ r ∈ pre2, r.Group_ID ≠ g2) :
    process_continuation_subtechnique_row row g2 (pre2 ++ new.map (withGroup g2)) last
      = (process_continuation_subtechnique_row row gid (pre ++ new.map (withGroup gid)) last).map
          (fun p => (withGroup g2 p.1, p.2)) := by
  cases h2 : row.cells[2]? <;>
    cases h3 : row.cells[3]? <;>
    cases h4 : row.cells[4]? <;>
    simp [process_continuation_subtechnique_row, withGroup, h2, h3, h4]
  rw [fallbackParentId_rename gid g2 pre pre2 new hp hp2]
  simp

/-- Row-loop simulation: run the row loop for two groups from histories
that are a foreign prefix plus the same records up to group id, and the two
runs emit the same record sequence up to group id, step for step. -/
theorem processRows_rename (rows : List Row) : ∀ (last gid g2 : String)
    (pre pre2 new : List TechRecord),
    (∀ r ∈ pre, r.Group_ID ≠ gid) → (∀ r ∈ pre2, r.Group_ID ≠ g2) →
    ∃ out : List TechRecord,
      processRows rows gid (pre ++ new.map (withGroup gid)) last
        = pre ++ out.map (withGroup gid) ∧
      processRows rows g2 (pre2 ++ new.map (withGroup g2)) last
        = pre2 ++ out.map (withGroup g2) := by
  induction rows with
  | nil => intro last gid g2 pre pre2 new hp hp2; exact ⟨new, rfl, rfl⟩
  | cons r rs ih =>
    intro last gid g2 pre pre2 new hp hp2
    cases hk : classifyRow r with
    | skipped =>
      have hstep1 : processRow r gid (pre ++ new.map (withGroup gid)) last
          = some (pre ++ new.map (withGroup gid), last) := by
        unfold processRow; rw [hk]
      have hstep2 : processRow r g2 (pre2 ++ new.map (withGroup g2)) last
          = some (pre2 ++ new.map (withGroup g2), last) := by
        unfold processRow; rw [hk]
      obtain ⟨out, e1, e2⟩ := ih last gid g2 pre pre2 new hp hp2
      exact ⟨out, by simp only [processRows, hstep1]; exact e1,
             by simp only [processRows, hstep2]; exact e2⟩
    | parent =>
      cases hpr : process_technique_row r gid last with
      | none =>
        have hpr2 : process_technique_row r g2 last = none := by
          rw [process_technique_row_rename r gid g2 last, hpr]; rfl
        have hstep1 : processRow r gid (pre ++ new.map (withGroup gid)) last = none := by
          unfold processRow; rw [hk, hpr]; rfl
        have hstep2 : processRow r g2 (pre2 ++ new.map (withGroup g2)) last = none := by
          unfold processRow; rw [hk, hpr2]; rfl
        exact ⟨new, by simp only [processRows, hstep1],
               by simp only [processRows, hstep2]⟩
      | some p =>
        obtain ⟨rec, lret⟩ := p
        have hrecg : rec.Group_ID = gid := by
          cases h0 : r.cells[0]? <;> cases h1 : r.cells[1]? <;>
            cases hc2 : r.cells[2]? <;> cases hc3 : r.cells[3]? <;>
            simp [process_technique_row, h0, h1, hc2, hc3] at hpr
          rw [← hpr.1]
        have hpr2 : process_technique_row r g2 last = some (withGroup g2 rec, lret) := by
          rw [process_technique_row_rename r gid g2 last, hpr]; rfl
        have hstep1 : processRow r gid (pre ++ new.map (withGroup gid)) last
            = some ((pre ++ new.map (withGroup gid)) ++ [rec], lret) := by
          unfold processRow; rw [hk, hpr]; rfl
        have hstep2 : processRow r g2 (pre2 ++ new.map (withGroup g2)) last
            = some ((pre2 ++ new.map (withGroup g2)) ++ [withGroup g2 rec], lret) := by
          unfold processRow; rw [hk, hpr2]; rfl
        have hacc1 : (pre ++ new.map (withGroup gid)) ++ [rec]
            = pre ++ (new ++ [rec]).map (withGroup gid) := by
          simp [withGroup_self gid rec hrecg]
        have hacc2 : (pre2 ++ new.map (withGroup g2)) ++ [withGroup g2 rec]
            = pre2 ++ (new ++ [rec]).map (withGroup g2) := by
          simp
        obtain ⟨out, e1, e2⟩ := ih lret gid g2 pre pre2 (new ++ [rec]) hp hp2
        refine ⟨out, ?_, ?_⟩
        · simp only [processRows, hstep1]
          rw [hacc1]
          exact e1
        · simp only [processRows, hstep2]
          rw [hacc2]
          exact e2
    | fullSub =>
      cases hpr : process_full_subtechnique_row r gid last with
      | none =>
        have hpr2 : process_full_subtechnique_row r g2 last = none := by
          rw [process_full_subtechnique_row_rename r gid g2 last, hpr]; rfl
        have hstep1 : processRow r gid (pre ++ new.map (withGroup gid)) last = none := by
          unfold processRow; rw [hk, hpr]; rfl
        have hstep2 : processRow r g2 (pre2 ++ new.map (withGroup g2)) last = none := by
          unfold processRow; rw [hk, hpr2]; rfl
        exact ⟨new, by simp only [processRows, hstep1],
               by simp only [processRows, hstep2]⟩
      | some p =>
        obtain ⟨rec, lret⟩ := p
        have hrecg : rec.Group_ID = gid := by
          cases h0 : r.cells[0]? <;> cases h1 : r.cells[1]? <;>
            cases hc2 : r.cells[2]? <;> cases hc3 : r.cells[3]? <;>
            cases hc4 : r.cells[4]? <;>
            simp [process_full_subtechnique_row, h0, h1, hc2, hc3, hc4] at hpr
          rw [← hpr.1]
        have hpr2 : process_full_subtechnique_row r g2 last
            = some (withGroup g2 rec, lret) := by
          rw [process_full_subtechnique_row_rename r gid g2 last, hpr]; rfl
        have hstep1 : processRow r gid (pre ++ new.map (withGroup gid)) last
            = some ((pre ++ new.map (withGroup gid)) ++ [rec], lret) := by
          unfold processRow; rw [hk, hpr]; rfl
        have hstep2 : processRow r g2 (pre2 ++ new.map (withGroup g2)) last
            = some ((pre2 ++ new.map (withGroup g2)) ++ [withGroup g2 rec], lret) := by
          unfold processRow; rw [hk, hpr2]; rfl
        have hacc1 : (pre ++ new.map (withGroup gid)) ++ [rec]
            = pre ++ (new ++ [rec]).map (withGroup gid) := by
          simp [withGroup_self gid rec hrecg]
        have hacc2 : (pre2 ++ new.map (withGroup g2)) ++ [withGroup g2 rec]
            = pre2 ++ (new ++ [rec]).map (withGroup g2) := by
          simp
        obtain ⟨out, e1, e2⟩ := ih lret gid g2 pre pre2 (new ++ [rec]) hp hp2
        refine ⟨out, ?_, ?_⟩
        · simp only [processRows, hstep1]
          rw [hacc1]
          exact e1
        · simp only [processRows, hstep2]
          rw [hacc2]
          exact e2
    | continuation =>
      cases hpr : process_continuation_subtechnique_row r gid
          (pre ++ new.map (withGroup gid)) last with
      | none =>
        have hpr2 : process_continuation_subtechnique_row r g2
            (pre2 ++ new.map (withGroup g2)) last = none := by
          rw [process_cont_row_rename r gid g2 last pre pre2 new hp hp2, hpr]; rfl
        have hstep1 : processRow r gid (pre ++ new.map (withGroup gid)) last = none := by
          unfold processRow; rw [hk, hpr]; rfl
        have hstep2 : processRow r g2 (pre2 ++ new.map (withGroup g2)) last = none := by
          unfold processRow; rw [hk, hpr2]; rfl
        exact ⟨new, by simp only [processRows, hstep1],
               by simp only [processRows, hstep2]⟩
      | some p =>
        obtain ⟨rec, lret⟩ := p
        have hrecg : rec.Group_ID = gid := by
          cases hc2 : r.cells[2]? <;> cases hc3 : r.cells[3]? <;>
            cases hc4 : r.cells[4]? <;>
            simp [process_continuation_subtechnique_row, hc2, hc3, hc4] at hpr
          rw [← hpr.1]
        have hpr2 : process_continuation_subtechnique_row r g2
            (pre2 ++ new.map (withGroup g2)) last = some (withGroup g2 rec, lret) := by
          rw [process_cont_row_rename r gid g2 last pre pre2 new hp hp2, hpr]; rfl
        have hstep1 : processRow r gid (pre ++ new.map (withGroup gid)) last
            = some ((pre ++ new.map (withGroup gid)) ++ [rec], lret) := by
          unfold processRow; rw [hk, hpr]; rfl
        have hstep2 : processRow r g2 (pre2 ++ new.map (withGroup g2)) last
            = some ((pre2 ++ new.map (withGroup g2)) ++ [withGroup g2 rec], lret) := by
          unfold processRow; rw [hk, hpr2]; rfl
        have hacc1 : (pre ++ new.map (withGroup gid)) ++ [rec]
            = pre ++ (new ++ [rec]).map (withGroup gid) := by
          simp [withGroup_self gid rec hrecg]
        have hacc2 : (pre2 ++ new.map (withGroup g2)) ++ [withGroup g2 rec]
            = pre2 ++ (new ++ [rec]).map (withGroup g2) := by
          simp
        obtain ⟨out, e1, e2⟩ := ih lret gid g2 pre pre2 (new ++ [rec]) hp hp2
        refine ⟨out, ?_, ?_⟩
        · simp only [processRows, hstep1]
          rw [hacc1]
          exact e1
        · simp only [processRows, hstep2]
          rw [hacc2]
          exact e2


/-- C7 counterexample: with the same group id and the same table markup
(`exTableC7`, whose first data row is a continuation row) parsed twice in
succession, the second parse emits a different record sequence than the
first — the continuation fallback reads the first parse's records, turning
parent id "" into "T1059". -/
theorem C7_idempotence_counterexample :
    (enum_mitre_attack_group_techniques
        [("G0007", FetchResult.table exTableC7),
         ("G0007", FetchResult.table exTableC7)]).map
      (fun r => r.Technique_ID) = ["", "T1059", "T1059", "T1059"] ∧
    (enum_mitre_attack_group_techniques
        [("G0007", FetchResult.table exTableC7),
         ("G0007", FetchResult.table exTableC7)]).take 2 ≠
    (enum_mitre_attack_group_techniques
        [("G0007", FetchResult.table exTableC7),
         ("G0007", FetchResult.table exTableC7)]).drop 2 := by decide

/-- C7 (amended): for two successive groups with distinct ids given
identical tables, the carry-over state is reinitialized and the second
group's record sequence equals the first group's with only the Group_ID
field renamed; when the same group id is parsed twice, the continuation
fallback may read the first parse's records and alter the output. -/
theorem C7_rename_idempotence (g1 g2 : String) (rows : List Row) (h : g1 ≠ g2) :
    ∃ out : List TechRecord,
      enum_mitre_attack_group_techniques
          [(g1, FetchResult.table rows), (g2, FetchResult.table rows)]
        = out ++ out.map (withGroup g2) ∧
      ∀ r ∈ out, r.Group_ID = g1 := by
  obtain ⟨out0, e0, _⟩ := processRows_rename (rows.drop 1) "" g1 g1 [] [] []
    (by simp) (by simp)
  simp only [List.map_nil, List.append_nil, List.nil_append] at e0
  obtain ⟨out1, ea, eb⟩ := processRows_rename (rows.drop 1) "" g1 g2 []
    (out0.map (withGroup g1)) []
    (by simp)
    (by intro r hr
        obtain ⟨s, hs, rfl⟩ := List.mem_map.mp hr
        simpa [withGroup] using h)
  simp only [List.map_nil, List.append_nil, List.nil_append] at ea eb
  have henum : enum_mitre_attack_group_techniques
      [(g1, FetchResult.table rows), (g2, FetchResult.table rows)]
      = processRows (rows.drop 1) g2 (processRows (rows.drop 1) g1 [] "") "" := rfl
  have hout01 : out0.map (withGroup g1) = out1.map (withGroup g1) := by
    rw [← e0, ← ea]
  refine ⟨out0.map (withGroup g1), ?_, ?_⟩
  · rw [henum, e0, eb]
    congr 1
    have hcomp : withGroup g2 ∘ withGroup g1 = withGroup g2 := by
      funext r; exact withGroup_comp g1 g2 r
    have h02 : out0.map (withGroup g2) = out1.map (withGroup g2) := by
      have := congrArg (List.map (withGroup g2)) hout01
      rwa [List.map_map, List.map_map, hcomp] at this
    rw [List.map_map, hcomp]
    exact h02.symm
  · intro r hr
    obtain ⟨s, hs, rfl⟩ := List.mem_map.mp hr
    rfl

/-- C7 witness: the renamed-idempotence conclusion at the concrete table
`exTableC7` for the distinct groups "G0007" and "G0016". -/
theorem C7_rename_idempotence_witness :
    ∃ out : List TechRecord,
      enum_mitre_attack_group_techniques
          [("G0007", FetchResult.table exTableC7),
           ("G0016", FetchResult.table exTableC7)]
        = out ++ out.map (withGroup "G0016") ∧
      ∀ r ∈ out, r.Group_ID = "G0007" :=
  C7_rename_idempotence "G0007" "G0016" exTableC7 (by decide)
